import Mathlib

/-!
Verification of the pyRevit loader component model
(`loader/Lib/pyRevit/loader/components.py`).

The Python module is shallowly embedded: filesystem access, the user
configuration (alias resolution) and the script metadata extractor are
external collaborators and are modelled as explicit environment records;
everything else is translated directly from the source.
-/

set_option autoImplicit false

namespace PyRevitLoader

/-! ## Path helpers (POSIX `os.path` semantics, as used by the source) -/

/-- The path separator `os.sep` (POSIX). -/
def pathSep : Char := '/'

/-- Split a character list on a separator character, Python `str.split(sep)`
semantics: `"".split` gives one empty group, separators delimit (possibly
empty) groups. -/
def splitChars (sep : Char) : List Char → List (List Char)
  | [] => [[]]
  | ch :: cs =>
    let r := splitChars sep cs
    if ch = sep then [] :: r
    else
      match r with
      | [] => [[ch]]
      | g :: gs => (ch :: g) :: gs

/-- Python `dir_str.split(os.sep)` on a `String`. -/
def pySplit (s : String) : List String :=
  (splitChars pathSep s.toList).map fun cs => String.mk cs

/-- Python `str.endswith`. -/
def pyEndsWith (s suffixStr : String) : Bool :=
  suffixStr.toList.isSuffixOf s.toList

/-- Contiguous-sublist check on character lists. -/
def containsSub (needle : List Char) : List Char → Bool
  | [] => needle.isEmpty
  | c :: t => needle.isPrefixOf (c :: t) || containsSub needle t

/-- Python `in` operator on strings: substring containment. -/
def strContains (needle hay : String) : Bool :=
  containsSub needle.toList hay.toList

/-- Case-insensitive substring containment; models `re.search` with a
pattern that is an alternation of escaped literals under `re.IGNORECASE`. -/
def strContainsCI (needle hay : String) : Bool :=
  containsSub (needle.toList.map Char.toLower) (hay.toList.map Char.toLower)

/-- `os.path.basename`: the part after the last separator. -/
def basename (s : String) : String :=
  String.mk ((s.toList.reverse.takeWhile (fun c => c ≠ pathSep)).reverse)

/-- `os.path.splitext` on a single path segment (no separators inside):
splits at the last dot, except that a run of leading dots never starts an
extension (CPython `genericpath._splitext`). -/
def splitext (s : String) : String × String :=
  let cs := s.toList
  match cs.reverse.findIdx? (fun c => c = '.') with
  | none => (s, "")
  | some k =>
    let i := cs.length - 1 - k
    if (cs.take i).any (fun c => c ≠ '.') then
      (String.mk (cs.take i), String.mk (cs.drop i))
    else
      (s, "")

/-- `os.path.join a b` (POSIX, for the two-argument uses in the source):
an absolute second component replaces the first. -/
def pyJoin (a b : String) : String :=
  if b.toList.head? = some pathSep then b
  else if a = "" ∨ a.toList.getLast? = some pathSep then a ++ b
  else a ++ String.mk [pathSep] ++ b

/-! ## Constants from `..core.config`

The `config` module is not part of the sources under verification; the
literals below are taken from the source docstrings where they appear
(`'/pyRevit.package/pyRevit.tab/Edit.panel/Flip doors.pushbutton'`) and
otherwise modelled from the spec.  Only their distinctness and suffix
shape matter for the properties proved here. -/

/-- `PACKAGE_POSTFIX` (source docstring, line 123). -/
def PACKAGE_POSTFIX : String := ".package"

/-- `TAB_POSTFIX` (source docstring, line 123). -/
def TAB_POSTFIX : String := ".tab"

/-- `PANEL_POSTFIX` (source docstring, line 123). -/
def PANEL_POSTFIX : String := ".panel"

/-- `PUSH_BUTTON_POSTFIX` (source docstring, line 334). -/
def PUSH_BUTTON_POSTFIX : String := ".pushbutton"

/-- Modelled from the spec: the reserved separator token recognised in
layout files (spec section 8 writes it as shown here). -/
def SEPARATOR_IDENTIFIER : String := "---separator---"

/-- Modelled from the spec: the reserved slideout token recognised in
layout files (the literal is not in the sources; only its distinctness
from component names is used). -/
def SLIDEOUT_IDENTIFIER : String := ">>>slideout>>>"

/-- Modelled from the spec: conventional icon filename (`DEFAULT_ICON_FILE`). -/
def DEFAULT_ICON_FILE : String := "icon.png"

/-- Modelled from the spec: conventional primary script filename
(`DEFAULT_SCRIPT_FILE`). -/
def DEFAULT_SCRIPT_FILE : String := "script.py"

/-- Modelled from the spec: conventional config script filename
(`DEFAULT_CONFIG_SCRIPT_FILE`). -/
def DEFAULT_CONFIG_SCRIPT_FILE : String := "config.py"

/-- Modelled from the spec: conventional layout filename
(`DEFAULT_LAYOUT_FILE_NAME`). -/
def DEFAULT_LAYOUT_FILE_NAME : String := "_layout"

/-- Modelled from the spec: script file extension (`SCRIPT_FILE_FORMAT`). -/
def SCRIPT_FILE_FORMAT : String := ".py"

/-- Modelled from the spec: settings file extension
(`SETTINGS_FILE_EXTENSION`). -/
def SETTINGS_FILE_EXTENSION : String := ".ini"

/-- Modelled from the spec: per-component library folder name
(`COMP_LIBRARY_DIR_NAME`, the `/Lib` subfolder of spec section 6). -/
def COMP_LIBRARY_DIR_NAME : String := "Lib"

/-- Modelled from the spec: suffix appended to a command's unique name to
derive its availability class name (`COMMAND_AVAILABILITY_NAME_POSTFIX`). -/
def COMMAND_AVAILABILITY_NAME_POSTFIX : String := "CommandAvail"

/-! ## `cleanup_string` and `_get_unique_name` -/

/-- Modelled from the spec: `cleanup_string` from `..core.coreutils` (not
among the sources under verification).  Spec section 4.1: "apply a
canonicalization (strip/collapse non-identifier characters) to produce an
identifier-safe string"; identifier characters are letters, digits and
underscore. -/
def cleanup_string (s : String) : String :=
  String.mk (s.toList.filter fun c => c.isAlphanum || c = '_')

/-- The loop body of `_get_unique_name`: `name, ext = op.splitext(dname);
if ext != '': uname += name`. -/
def unameStep (acc seg : String) : String :=
  let p := splitext seg
  if p.2 ≠ "" then acc ++ p.1 else acc

/-- `GenericContainer._get_unique_name` / `GenericCommand._get_unique_name`
(the two bodies are textually identical, source lines 119-134 and
329-345): split the directory on the path separator, concatenate the
name-portion of every segment that has a non-empty extension, then
canonicalize. -/
def getUniqueName (dir : String) : String :=
  cleanup_string ((pySplit dir).foldl unameStep "")

/-- Concatenation, in path order, of the name-portions of the segments
that carry an extension (the loop body of `_get_unique_name`). -/
def suffixedNamesConcat : List String → String
  | [] => ""
  | seg :: rest =>
    (if (splitext seg).2 ≠ "" then (splitext seg).1 else "") ++ suffixedNamesConcat rest

/-! ## The component tree

`GenericCommand` objects are leaves; `GenericContainer` objects hold a
raw sub-component list (`_sub_components`), an optional layout list and a
search-path list.  Only the attributes the traversal / search-path /
layout operations touch are carried here. -/

inductive Comp where
  /-- A `GenericCommand`: `original_name`, `name` (display name, after
  alias resolution) and `syspath_search_paths`. -/
  | cmd (origName dispName : String) (syspaths : List String)
  /-- A `GenericContainer`: `original_name`, `name`,
  `syspath_search_paths`, `layout_list` and `_sub_components`. -/
  | cont (origName dispName : String) (syspaths : List String)
      (layoutList : Option (List String)) (subs : List Comp)

/-- `original_name`. -/
def Comp.originalName : Comp → String
  | .cmd o _ _ => o
  | .cont o _ _ _ _ => o

/-- `name` (the display name). -/
def Comp.displayName : Comp → String
  | .cmd _ n _ => n
  | .cont _ n _ _ _ => n

/-- `syspath_search_paths`. -/
def Comp.syspaths : Comp → List String
  | .cmd _ _ ps => ps
  | .cont _ _ ps _ _ => ps

/-- `get_components` (source lines 218-219); commands hold no
sub-components. -/
def Comp.getComponents : Comp → List Comp
  | .cmd _ _ _ => []
  | .cont _ _ _ _ subs => subs

/-- `has_syspath` (source lines 192-193 and 369-370). -/
def Comp.hasSyspath (c : Comp) (path : String) : Bool :=
  path ∈ c.syspaths

mutual
/-- `add_syspath` (source lines 195-202 for containers, 372-377 for
commands): a truthy path not already present is pushed to every current
sub-component and then appended to the component's own list; otherwise
the call is a no-op. -/
def Comp.addSyspath : Comp → String → Comp
  | .cmd o n ps, p =>
    if p ≠ "" ∧ p ∉ ps then .cmd o n (ps ++ [p]) else .cmd o n ps
  | .cont o n ps lay subs, p =>
    if p ≠ "" ∧ p ∉ ps then .cont o n (ps ++ [p]) lay (Comp.addSyspathList subs p)
    else .cont o n ps lay subs

def Comp.addSyspathList : List Comp → String → List Comp
  | [], _ => []
  | c :: cs, p => Comp.addSyspath c p :: Comp.addSyspathList cs p
end

mutual
/-- `remove_syspath` (source lines 204-211 for containers, 379-384 for
commands): a truthy path that is present is first removed from every
current sub-component (containers only), then one occurrence is removed
from the component's own list; otherwise the call is a no-op. -/
def Comp.removeSyspath : Comp → String → Comp
  | .cmd o n ps, p =>
    if p ≠ "" ∧ p ∈ ps then .cmd o n (ps.erase p) else .cmd o n ps
  | .cont o n ps lay subs, p =>
    if p ≠ "" ∧ p ∈ ps then
      .cont o n (ps.erase p) lay (Comp.removeSyspathList subs p)
    else .cont o n ps lay subs

def Comp.removeSyspathList : List Comp → String → List Comp
  | [], _ => []
  | c :: cs, p => Comp.removeSyspath c p :: Comp.removeSyspathList cs p
end

/-- `GenericContainer.add_component` (source lines 213-216): push every
currently-held search path of the container to the child, then append the
child to the raw sub-component list.  `GenericCommand` has no
`add_component`; the `cmd` case is an unreachable identity. -/
def Comp.addComponent : Comp → Comp → Comp
  | .cont o n ps lay subs, child => .cont o n ps lay (subs ++ [ps.foldl Comp.addSyspath child])
  | .cmd o n ps, _ => .cmd o n ps

/-- `GenericContainer.contains` (source lines 172-175): scans the raw
sub-component list comparing against the display name; the Python
function returns `True` or falls through to `None` (falsy), modelled as a
`Bool`.  Commands have no `contains`; the `cmd` case is an unreachable
`false`. -/
def Comp.containsItem : Comp → String → Bool
  | .cont _ _ _ _ subs, item => subs.any (fun c => item = c.displayName)
  | .cmd _ _ _, _ => false

/-! ## Layout-driven display order -/

/-- Entries of the list produced by `_get_components_per_layout`: real
sub-components, or the fresh `GenericSeparator()` / `GenericSlideout()`
marker objects inserted per layout. -/
inductive UIItem where
  | component (c : Comp)
  | separatorMarker
  | slideoutMarker

/-- Python `list.insert(i, x)`: insert before index `i`, appending when
`i` is past the end. -/
def pyInsertAt {α : Type} (i : Nat) (x : α) : List α → List α
  | [] => [x]
  | y :: ys =>
    match i with
    | 0 => x :: y :: ys
    | j + 1 => y :: pyInsertAt j x ys


/-- First pass of `_get_components_per_layout` (source lines 151-156):
`for layout_item in self.layout_list: for component in _sub_components:
if component.original_name == layout_item: append; break`. -/
def collectPerLayout (subs : List Comp) : List String → List UIItem → List UIItem
  | [], acc => acc
  | item :: rest, acc =>
    match subs.find? (fun c => c.originalName = item) with
    | some c => collectPerLayout subs rest (acc ++ [UIItem.component c])
    | none => collectPerLayout subs rest acc

/-- Second pass of `_get_components_per_layout` (source lines 160-165):
`for i_index, layout_item in enumerate(self.layout_list)`, inserting a
fresh marker at the ORIGINAL layout index into the growing result list,
skipping markers whose position is the last layout entry. -/
def insertMarkersAux (lastItemIndex : Nat) :
    List String → Nat → List UIItem → List UIItem
  | [], _, acc => acc
  | item :: rest, i, acc =>
    if strContains SEPARATOR_IDENTIFIER item ∧ i < lastItemIndex then
      insertMarkersAux lastItemIndex rest (i + 1) (pyInsertAt i UIItem.separatorMarker acc)
    else if strContains SLIDEOUT_IDENTIFIER item ∧ i < lastItemIndex then
      insertMarkersAux lastItemIndex rest (i + 1) (pyInsertAt i UIItem.slideoutMarker acc)
    else insertMarkersAux lastItemIndex rest (i + 1) acc

/-- `GenericContainer._get_components_per_layout` (source lines 145-170).
If a (truthy) layout list and a non-empty sub-component list exist:
first pass appends, for each layout entry in order, the first raw
sub-component whose `original_name` equals the entry; second pass walks
the layout entries by original position, inserting a fresh separator or
slideout marker at that position when the entry contains the respective
identifier, except at the last layout position.  Otherwise the raw
sub-component list is returned. -/
def getComponentsPerLayout (layoutList : Option (List String)) (subs : List Comp) :
    List UIItem :=
  match layoutList with
  | some layout =>
    if layout.isEmpty = false ∧ subs.isEmpty = false then
      insertMarkersAux (layout.length - 1) layout 0 (collectPerLayout subs layout [])
    else subs.map UIItem.component
  | none => subs.map UIItem.component

/-- `GenericContainer.__iter__` (source lines 113-114): iteration yields
the layout-ordered items. -/
def Comp.iterItems : Comp → List UIItem
  | .cont _ _ _ lay subs => getComponentsPerLayout lay subs
  | .cmd _ _ _ => []

/-! ## The generic cache data contract

`get_cache_data` / `load_cache_data` copy the instance `__dict__`
wholesale.  `CVal` is the value universe (values are copied opaquely;
nested lists and nested mappings cover exported sub-component
structures), `CacheDict` an insertion-ordered `__dict__`. -/

inductive CVal where
  | cnone
  | cstr (s : String)
  | cnat (n : Nat)
  | clist (l : List CVal)
  | cdict (d : List (String × CVal))

abbrev CacheDict := List (String × CVal)

/-- Python `d[k] = v`: replace an existing key in place, else append. -/
def dictSet : CacheDict → String → CVal → CacheDict
  | [], k, v => [(k, v)]
  | (k0, v0) :: d, k, v =>
    if k0 = k then (k, v) :: d else (k0, v0) :: dictSet d k v

/-- Python `d[k]` / `d.get(k)`. -/
def dictGet : CacheDict → String → Option CVal
  | [], _ => none
  | (k0, v0) :: d, k => if k0 = k then some v0 else dictGet d k

def dictKeys (d : CacheDict) : List String := d.map Prod.fst

/-- An entity: its class-level `type_id` and its instance `__dict__`. -/
structure PyObject where
  typeIdClass : String
  attrdict : CacheDict

/-- Attribute lookup of `self.type_id`: the instance `__dict__` shadows
the class attribute. -/
def PyObject.typeIdAttr (o : PyObject) : CVal :=
  match dictGet o.attrdict "type_id" with
  | some v => v
  | none => .cstr o.typeIdClass

/-- Generic attribute view of an entity (instance `__dict__` first, then
the class data attribute `type_id`). -/
def PyObject.attr (o : PyObject) (k : String) : Option CVal :=
  match dictGet o.attrdict k with
  | some v => some v
  | none => if k = "type_id" then some (.cstr o.typeIdClass) else none

/-- `get_cache_data` (source lines 177-180 for containers, 351-354 for
commands): `cache_dict = self.__dict__.copy();
cache_dict['type_id'] = self.type_id`. -/
def get_cache_data (o : PyObject) : CacheDict :=
  dictSet o.attrdict "type_id" o.typeIdAttr

/-- `load_cache_data` (source lines 182-184 for containers, 356-358 for
commands): `for k, v in cache_dict.items(): self.__dict__[k] = v`. -/
def load_cache_data (o : PyObject) (cache : CacheDict) : PyObject :=
  { o with attrdict := cache.foldl (fun d kv => dictSet d kv.1 kv.2) o.attrdict }

/-- The instance `__dict__` a fresh `GenericContainer()` starts with
(source lines 69-78). -/
def containerInitDict : CacheDict :=
  [("_sub_components", .clist []), ("directory", .cnone), ("original_name", .cnone),
   ("name", .cnone), ("unique_name", .cnone), ("library_path", .cnone),
   ("syspath_search_paths", .clist []), ("layout_list", .cnone), ("icon_file", .cnone)]

/-- The instance `__dict__` a fresh `GenericCommand()` starts with
(source lines 233-241). -/
def commandInitDict : CacheDict :=
  [("directory", .cnone), ("original_name", .cnone), ("ui_title", .cnone),
   ("name", .cnone), ("icon_file", .cnone), ("script_file", .cnone),
   ("config_script_file", .cnone), ("min_pyrevit_ver", .cnone), ("min_revit_ver", .cnone),
   ("doc_string", .cnone), ("author", .cnone), ("cmd_options", .cnone),
   ("cmd_context", .cnone), ("unique_name", .cnone), ("unique_avail_name", .cnone),
   ("library_path", .cnone), ("search_paths", .cnone),
   ("syspath_search_paths", .clist [])]

/-- Fresh `Package()` `__dict__` (source lines 541-545). -/
def packageInitDict : CacheDict :=
  containerInitDict ++
  [("author", .cnone), ("version", .cnone), ("hash_value", .cnone),
   ("hash_version", .cnone)]

/-- Fresh `ToggleButton()` `__dict__` (source lines 434-436). -/
def toggleButtonInitDict : CacheDict :=
  commandInitDict ++ [("icon_on_file", .cnone), ("icon_off_file", .cnone)]

/-- Fresh `LinkButton()` `__dict__` (source lines 409-411). -/
def linkButtonInitDict : CacheDict :=
  commandInitDict ++ [("assembly", .cnone), ("command_class", .cnone)]

/-- A representative constructed `Package` `__dict__`, with a nested
exported sub-component (used by the cache round-trip witness). -/
def samplePackageDict : CacheDict :=
  [("_sub_components", .clist
      [.cdict [("type_id", .cstr ".tab"), ("directory", .cstr "/p.package/T.tab"),
               ("original_name", .cstr "T"), ("name", .cstr "T")]]),
   ("directory", .cstr "/p.package"), ("original_name", .cstr "p"),
   ("name", .cstr "p"), ("unique_name", .cstr "p"), ("library_path", .cnone),
   ("syspath_search_paths", .clist [.cstr "/p.package/Lib"]),
   ("layout_list", .clist [.cstr "T"]), ("icon_file", .cnone),
   ("author", .cstr "jane"), ("version", .cnone), ("hash_value", .cstr "123"),
   ("hash_version", .cstr "4.0")]

/-! ## Construction from a directory

`__init_from_dir__` for containers and commands.  Filesystem existence
checks, alias resolution (`user_config.get_alias`), layout file reading,
the `ScriptFileParser` and the host/app version comparators
(`HostVersion.is_older_than`, `PyRevitVersion.is_older_than`) are
external collaborators, modelled as environment records. -/

/-- Python values flowing out of the metadata extractor (`None`, strings,
lists/tuples), with Python truthiness. -/
inductive PyVal where
  | vnone
  | vstr (s : String)
  | vlist (l : List PyVal)

/-- Python truthiness of a `PyVal`. -/
def PyVal.truthy : PyVal → Bool
  | .vnone => false
  | .vstr s => !s.isEmpty
  | .vlist l => !l.isEmpty

/-- The exceptions raised by `__init_from_dir__`:
`PyRevitUnknownFormatError` (source lines 85, 246),
`PyRevitNoScriptFileError` (line 263) and the two
`PyRevitException('Command requires a newer ... version')` dependency
errors (lines 323, 326) — the spec's DependencyError. -/
inductive PyErr where
  | unknownFormatError
  | noScriptFileError
  | newerHostVersionRequired
  | newerPyRevitVersionRequired
  deriving DecidableEq

/-- Whether an error is one of the two version-gate errors raised by
`_check_dependencies` (the spec's DependencyError). -/
def PyErr.isDependencyError : PyErr → Bool
  | .newerHostVersionRequired => true
  | .newerPyRevitVersionRequired => true
  | _ => false

/-- Modelled from the spec: the extractor parameter names (title, doc,
author, min app/host versions, options, context); the literals live in
the `config` module, outside the sources — only distinctness matters. -/
def UI_TITLE_PARAM : String := "__title__"

/-- Modelled from the spec: doc-string parameter name. -/
def DOCSTRING_PARAM : String := "__doc__"

/-- Modelled from the spec: author parameter name. -/
def AUTHOR_PARAM : String := "__author__"

/-- Modelled from the spec: minimum app (pyRevit) version parameter name. -/
def MIN_PYREVIT_VERSION_PARAM : String := "__min_req_pyrevit__"

/-- Modelled from the spec: minimum host (Revit) version parameter name. -/
def MIN_REVIT_VERSION_PARAM : String := "__min_req_revit__"

/-- Modelled from the spec: command options parameter name. -/
def COMMAND_OPTIONS_PARAM : String := "__cmdoptions__"

/-- Modelled from the spec: command context parameter name. -/
def COMMAND_CONTEXT_PARAM : String := "__context__"

/-- Instance state of a `GenericCommand` (fields of `__init__`, source
lines 233-241). -/
structure CmdState where
  directory : Option String
  original_name : Option String
  ui_title : PyVal
  name : Option String
  icon_file : Option String
  script_file : Option String
  config_script_file : Option String
  min_pyrevit_ver : PyVal
  min_revit_ver : PyVal
  doc_string : PyVal
  author : PyVal
  cmd_options : PyVal
  cmd_context : PyVal
  unique_name : Option String
  unique_avail_name : Option String
  library_path : Option String
  search_paths : Option (List String)
  syspath_search_paths : List String

/-- A fresh `GenericCommand()` (source lines 233-241). -/
def freshCmdState : CmdState :=
  { directory := none, original_name := none, ui_title := .vnone, name := none,
    icon_file := none, script_file := none, config_script_file := none,
    min_pyrevit_ver := .vnone, min_revit_ver := .vnone, doc_string := .vnone,
    author := .vnone, cmd_options := .vnone, cmd_context := .vnone,
    unique_name := none, unique_avail_name := none, library_path := none,
    search_paths := none, syspath_search_paths := [] }

/-- Instance state of a `GenericContainer` (fields of `__init__`, source
lines 69-78). -/
structure ContState where
  sub_components : List Comp
  directory : Option String
  original_name : Option String
  name : Option String
  unique_name : Option String
  library_path : Option String
  syspath_search_paths : List String
  layout_list : Option (List String)
  icon_file : Option String

/-- A fresh `GenericContainer()` (source lines 69-78). -/
def freshContState : ContState :=
  { sub_components := [], directory := none, original_name := none, name := none,
    unique_name := none, library_path := none, syspath_search_paths := [],
    layout_list := none, icon_file := none }

/-- External collaborators of `GenericCommand.__init_from_dir__`. -/
structure CmdEnv where
  getAlias : String → String → String
  pathExists : String → Bool
  parserInitOk : Bool
  extractParam : String → Except Unit PyVal
  hostIsOlderThan : PyVal → Bool
  appIsOlderThan : PyVal → Bool

/-- External collaborators of `GenericContainer.__init_from_dir__`. -/
structure ContEnv where
  getAlias : String → String → String
  pathExists : String → Bool
  readLines : String → List String

/-- The `try: ... except PyRevitException: logger.error(err)` block of
`GenericCommand.__init_from_dir__` (source lines 271-285): a single block
around ALL seven extractions — the first failure (parser construction or
any `extract_param`) abandons the REST of the block, the exception is
logged and swallowed, and the fields assigned so far keep their values. -/
def runExtractions (env : CmdEnv) (s : CmdState) : CmdState :=
  if env.parserInitOk = false then s else
  match env.extractParam UI_TITLE_PARAM with
  | .error _ => s
  | .ok u =>
    let s := if u.truthy = true then { s with ui_title := u } else s
    match env.extractParam DOCSTRING_PARAM with
    | .error _ => s
    | .ok v1 =>
      let s := { s with doc_string := v1 }
      match env.extractParam AUTHOR_PARAM with
      | .error _ => s
      | .ok v2 =>
        let s := { s with author := v2 }
        match env.extractParam MIN_PYREVIT_VERSION_PARAM with
        | .error _ => s
        | .ok v3 =>
          let s := { s with min_pyrevit_ver := v3 }
          match env.extractParam MIN_REVIT_VERSION_PARAM with
          | .error _ => s
          | .ok v4 =>
            let s := { s with min_revit_ver := v4 }
            match env.extractParam COMMAND_OPTIONS_PARAM with
            | .error _ => s
            | .ok v5 =>
              let s := { s with cmd_options := v5 }
              match env.extractParam COMMAND_CONTEXT_PARAM with
              | .error _ => s
              | .ok v6 => { s with cmd_context := v6 }

/-- `GenericCommand.__init_from_dir__` (source lines 243-312), with the
raise points returned as the error component alongside the object state
at the moment of the raise. -/
def initFromDirCmd (env : CmdEnv) (typeId : String) (s0 : CmdState) (dir : String) :
    CmdState × Option PyErr :=
  let s1 := { s0 with directory := some dir }
  if pyEndsWith dir typeId = false then (s1, some .unknownFormatError) else
  let oname := (splitext (basename dir)).1
  let nm := env.getAlias oname typeId
  let s2 := { s1 with original_name := some oname,
                      name := some nm,
                      ui_title := .vstr nm }
  let iconPath := pyJoin dir DEFAULT_ICON_FILE
  let iconFound := env.pathExists iconPath
  let s3 := { s2 with icon_file := if iconFound = true then some iconPath else none }
  let scriptPath := pyJoin dir DEFAULT_SCRIPT_FILE
  let scriptFound := env.pathExists scriptPath
  let s4 := { s3 with script_file := if scriptFound = true then some scriptPath else none }
  if s4.script_file = none then (s4, some .noScriptFileError) else
  let cfgPath := pyJoin dir DEFAULT_CONFIG_SCRIPT_FILE
  let cfgFound := env.pathExists cfgPath
  let s5a := { s4 with config_script_file := if cfgFound = true then some cfgPath else none }
  let s5 := if s5a.config_script_file = none
    then { s5a with config_script_file := s5a.script_file } else s5a
  let s6 := runExtractions env s5
  if s6.min_revit_ver.truthy = true ∧ env.hostIsOlderThan s6.min_revit_ver = true then
    (s6, some .newerHostVersionRequired)
  else if s6.min_pyrevit_ver.truthy = true ∧ env.appIsOlderThan s6.min_pyrevit_ver = true then
    (s6, some .newerPyRevitVersionRequired)
  else
    let uname := getUniqueName dir
    let availName := if s6.cmd_context.truthy = true
      then some (uname ++ COMMAND_AVAILABILITY_NAME_POSTFIX)
      else s6.unique_avail_name
    let s7 := { s6 with unique_name := some uname,
                        unique_avail_name := availName }
    let libPath := pyJoin dir COMP_LIBRARY_DIR_NAME
    let libFound := env.pathExists libPath
    let s8 := { s7 with library_path := if libFound = true then some libPath else none }
    let s9 := if libFound = true
      then { s8 with syspath_search_paths := s8.syspath_search_paths ++ [libPath] }
      else s8
    (s9, none)

/-- `GenericContainer.__init_from_dir__` (source lines 80-107), with the
raise point returned as the error component alongside the object state at
the moment of the raise. -/
def initFromDirCont (env : ContEnv) (typeId : String) (s0 : ContState) (dir : String) :
    ContState × Option PyErr :=
  let s1 := { s0 with sub_components := [],
                      directory := some dir }
  if pyEndsWith dir typeId = false then (s1, some .unknownFormatError) else
  let oname := (splitext (basename dir)).1
  let nm := env.getAlias oname typeId
  let s2 := { s1 with original_name := some oname,
                      name := some nm,
                      unique_name := some (getUniqueName dir) }
  let libPath := pyJoin dir COMP_LIBRARY_DIR_NAME
  let libFound := env.pathExists libPath
  let s3 := { s2 with library_path := if libFound = true then some libPath else none }
  let s4 := if libFound = true
    then { s3 with syspath_search_paths := s3.syspath_search_paths ++ [libPath] }
    else s3
  let layoutPath := pyJoin dir DEFAULT_LAYOUT_FILE_NAME
  let layoutFound := env.pathExists layoutPath
  let layoutLines := env.readLines layoutPath
  let s5 := { s4 with layout_list := if layoutFound = true then some layoutLines else none }
  let iconPath := pyJoin dir DEFAULT_ICON_FILE
  let iconFound := env.pathExists iconPath
  let s6 := { s5 with icon_file := if iconFound = true then some iconPath else none }
  (s6, none)

/-- A trivial container environment (nothing on disk, aliases inert). -/
def trivContEnv : ContEnv :=
  { getAlias := fun o _ => o, pathExists := fun _ => false, readLines := fun _ => [] }

/-- A trivial command environment (nothing on disk, extractor inert). -/
def trivCmdEnv : CmdEnv :=
  { getAlias := fun o _ => o, pathExists := fun _ => false, parserInitOk := true,
    extractParam := fun _ => .ok .vnone,
    hostIsOlderThan := fun _ => false, appIsOlderThan := fun _ => false }

/-- A command environment whose script declares a minimum host version
newer than the running host (script present, everything else absent). -/
def depGateCmdEnv : CmdEnv :=
  { getAlias := fun o _ => o
    pathExists := fun p => pyEndsWith p DEFAULT_SCRIPT_FILE
    parserInitOk := true
    extractParam := fun p =>
      if p = MIN_REVIT_VERSION_PARAM then .ok (.vstr "2019") else .ok .vnone
    hostIsOlderThan := fun _ => true
    appIsOlderThan := fun _ => false }

/-- A command environment where extracting the doc string fails while the
extractor does hold an author value (script present). -/
def docFailCmdEnv : CmdEnv :=
  { getAlias := fun o _ => o
    pathExists := fun p => pyEndsWith p DEFAULT_SCRIPT_FILE
    parserInitOk := true
    extractParam := fun p =>
      if p = DOCSTRING_PARAM then .error ()
      else if p = AUTHOR_PARAM then .ok (.vstr "jane")
      else if p = UI_TITLE_PARAM then .ok (.vstr "Title")
      else .ok .vnone
    hostIsOlderThan := fun _ => false
    appIsOlderThan := fun _ => false }

/-! ## Package content hashing

`Package._calculate_hash` (source lines 552-571) walks the package
subtree with `os.walk`; every directory whose base name matches the
case-insensitive pattern `(\.tab)|(\.panel)` contributes its
modification time, and every file inside such a directory whose name
matches `(\.py)|(\.ini)|(<layout name>)` contributes its modification
time; the times are summed into `mtime_sum`.  The source then hashes
`str(mtime_sum)` with `hashlib.md5().hexdigest()` — a fixed function of
the accumulator, whose collisions the spec (section 4.4) explicitly
declares acceptable ("non-cryptographic, collision-acceptable content
digest"); the hash is therefore modelled as the accumulator itself, with
modification times as naturals. -/

structure FSFile where
  fname : String
  mtime : Nat

/-- A directory subtree: base name, its own modification time, contained
files and subdirectories. -/
inductive FSDir where
  | mk (dname : String) (mtime : Nat) (files : List FSFile) (subdirs : List FSDir)

def FSDir.dname : FSDir → String
  | .mk n _ _ _ => n

def FSDir.dmtime : FSDir → Nat
  | .mk _ m _ _ => m

def FSDir.files : FSDir → List FSFile
  | .mk _ _ fs _ => fs

def FSDir.subdirs : FSDir → List FSDir
  | .mk _ _ _ ds => ds

/-- The directory pattern `pat = (\.tab)|(\.panel)` searched with
`re.IGNORECASE` against `op.basename(root)`. -/
def matchStructuralDir (s : String) : Bool :=
  strContainsCI TAB_POSTFIX s || strContainsCI PANEL_POSTFIX s

/-- The file pattern `patfile = (\.py)|(\.ini)|(<layout name>)` searched
with `re.IGNORECASE` against the file name. -/
def matchRelevantFile (s : String) : Bool :=
  strContainsCI SCRIPT_FILE_FORMAT s || strContainsCI SETTINGS_FILE_EXTENSION s
    || strContainsCI DEFAULT_LAYOUT_FILE_NAME s

/-- Modification-time contribution of the files of one matched directory. -/
def fileMtimeSum : List FSFile → Nat
  | [] => 0
  | f :: fs => (if matchRelevantFile f.fname then f.mtime else 0) + fileMtimeSum fs

mutual
/-- The `mtime_sum` accumulator of `_calculate_hash` over a subtree. -/
def dirMtimeSum : FSDir → Nat
  | .mk n m fs subs =>
    (if matchStructuralDir n then m + fileMtimeSum fs else 0) + dirsMtimeSum subs

def dirsMtimeSum : List FSDir → Nat
  | [] => 0
  | d :: ds => dirMtimeSum d + dirsMtimeSum ds
end

/-- `Package._calculate_hash`, modelled up to the final
`hashlib.md5(str(·)).hexdigest()` encoding of the accumulator (see the
section comment above). -/
def calculate_hash (root : FSDir) : Nat :=
  dirMtimeSum root

/-- Address a subdirectory by a path of child indices. -/
def dirAt : List Nat → FSDir → Option FSDir
  | [], d => some d
  | i :: rest, .mk _ _ _ subs =>
    match subs[i]? with
    | some d' => dirAt rest d'
    | none => none

/-- Replace the modification time of the file at index `fi`. -/
def updFileMtime (fi t : Nat) : List FSFile → List FSFile
  | [] => []
  | f :: fs =>
    match fi with
    | 0 => ⟨f.fname, t⟩ :: fs
    | j + 1 => f :: updFileMtime j t fs

/-- Replace the modification time of the file at index `fi` of the
directory addressed by `path`. -/
def updAt : List Nat → Nat → Nat → FSDir → FSDir
  | [], fi, t, .mk n m fs subs => .mk n m (updFileMtime fi t fs) subs
  | i :: rest, fi, t, .mk n m fs subs =>
    match subs[i]? with
    | none => .mk n m fs subs
    | some d' => .mk n m fs (subs.take i ++ updAt rest fi t d' :: subs.drop (i + 1))

/-- The contribution of one file mtime to the accumulator: counted only
when its directory matches the structural pattern and its name matches
the relevant-file pattern. -/
def relevantWeight (dname fname : String) (v : Nat) : Nat :=
  if matchStructuralDir dname = true ∧ matchRelevantFile fname = true then v else 0

/-- Agreement of two file lists on names and on the mtimes of
relevant-pattern files (other mtimes are unconstrained). -/
def filesAgree : List FSFile → List FSFile → Bool
  | [], [] => true
  | f1 :: r1, f2 :: r2 =>
    (f1.fname == f2.fname) && (!matchRelevantFile f1.fname || f1.mtime == f2.mtime)
      && filesAgree r1 r2
  | _, _ => false

mutual
/-- Agreement of two subtrees on shape and names, on the mtimes of
structural-pattern directories and on the mtimes of relevant-pattern
files inside them; all other modification times are unconstrained. -/
def dirsAgree : FSDir → FSDir → Bool
  | .mk n1 m1 fs1 s1, .mk n2 m2 fs2 s2 =>
    (n1 == n2)
      && (if matchStructuralDir n1 then (m1 == m2) && filesAgree fs1 fs2 else true)
      && dirListAgree s1 s2

def dirListAgree : List FSDir → List FSDir → Bool
  | [], [] => true
  | d1 :: r1, d2 :: r2 => dirsAgree d1 d2 && dirListAgree r1 r2
  | _, _ => false
end

/-- A sample package tree: `pkg.package/{icon.png, T.tab/{_layout,
P.panel/{script.py, icon.png}}}`. -/
def sampleTree : FSDir :=
  .mk "pkg.package" 5 [⟨"icon.png", 7⟩]
    [.mk "T.tab" 11 [⟨"_layout", 13⟩]
      [.mk "P.panel" 17 [⟨"script.py", 19⟩, ⟨"icon.png", 23⟩] []]]

/-- `sampleTree` with both icon mtimes changed. -/
def sampleTreeIcons : FSDir :=
  .mk "pkg.package" 5 [⟨"icon.png", 700⟩]
    [.mk "T.tab" 11 [⟨"_layout", 13⟩]
      [.mk "P.panel" 17 [⟨"script.py", 19⟩, ⟨"icon.png", 2300⟩] []]]

theorem unameStep_eq (acc seg : String) :
    unameStep acc seg
      = if (splitext seg).2 ≠ "" then acc ++ (splitext seg).1 else acc := rfl

theorem foldl_uname_eq_concat (l : List String) (acc : String) :
    l.foldl unameStep acc = acc ++ suffixedNamesConcat l := by
  induction l generalizing acc with
  | nil => simp [suffixedNamesConcat, String.append_empty]
  | cons seg rest ih =>
    rw [List.foldl_cons, ih, suffixedNamesConcat]
    by_cases h : (splitext seg).2 = ""
    · rw [unameStep_eq, if_neg (fun hn => hn h), if_neg (fun hn => hn h),
        String.empty_append]
    · rw [unameStep_eq, if_pos h, if_pos h, String.append_assoc]

theorem cleanup_string_toList (s : String) :
    (cleanup_string s).toList = s.toList.filter (fun c => c.isAlphanum || c = '_') := rfl

end PyRevitLoader

namespace PyRevitLoader

/-- C2.  For every directory path (in particular every one ending in a
known kind suffix), `_get_unique_name` produces an identifier-safe string
— every character is alphanumeric or an underscore, and in particular no
character is the path separator or a dot — the same path always yields
the same `unique_name`, and the result is exactly the canonicalization of
the concatenated name-portions of the extension-carrying path segments.
(The injectivity part of the claim is settled separately: it fails, see
the counterexample.) -/
theorem unique_name_identifier_safe (dir : String) :
    (∀ c ∈ (getUniqueName dir).toList,
        (c.isAlphanum = true ∨ c = '_') ∧ c ≠ pathSep ∧ c ≠ '.')
    ∧ (∀ dir', dir = dir' → getUniqueName dir = getUniqueName dir')
    ∧ getUniqueName dir = cleanup_string (suffixedNamesConcat (pySplit dir)) := by
  refine ⟨?_, ?_, ?_⟩
  · intro c hc
    rw [getUniqueName, cleanup_string_toList, List.mem_filter] at hc
    have hp := hc.2
    have hid : c.isAlphanum = true ∨ c = '_' := by
      rcases Bool.or_eq_true_iff.mp hp with h | h
      · exact Or.inl h
      · exact Or.inr (by simpa using h)
    refine ⟨hid, ?_, ?_⟩
    · rintro rfl
      rcases hid with h | h
      · simp [pathSep] at h
      · simp [pathSep] at h
    · rintro rfl
      rcases hid with h | h
      · simp at h
      · simp at h
  · rintro dir' rfl; rfl
  · rw [getUniqueName, foldl_uname_eq_concat]
    rfl

/-- Witness for `unique_name_identifier_safe` at the directory from the
source docstring. -/
theorem unique_name_identifier_safe_witness :
    ('R' ∈ (getUniqueName "/pyRevit.package/pyRevit.tab/Edit.panel").toList →
      ('R'.isAlphanum = true ∨ 'R' = '_') ∧ 'R' ≠ pathSep ∧ 'R' ≠ '.')
    ∧ getUniqueName "/pyRevit.package/pyRevit.tab/Edit.panel"
        = cleanup_string (suffixedNamesConcat (pySplit "/pyRevit.package/pyRevit.tab/Edit.panel")) :=
  ⟨fun h => (unique_name_identifier_safe "/pyRevit.package/pyRevit.tab/Edit.panel").1 'R' h,
   (unique_name_identifier_safe "/pyRevit.package/pyRevit.tab/Edit.panel").2.2⟩


/-- C2 counterexample.  Two distinct directory paths, all of whose
non-empty segments carry a type-tag extension and which differ in their
suffixed segments, still collapse to the same `unique_name`: plain
concatenation of name-portions is not injective, refuting the claim that
"two paths differing in some suffixed segment yield different
unique_names". -/
theorem unique_name_not_injective :
    "/ab.tab/c.panel" ≠ "/a.tab/bc.panel"
    ∧ pySplit "/ab.tab/c.panel" ≠ pySplit "/a.tab/bc.panel"
    ∧ (∀ seg ∈ pySplit "/ab.tab/c.panel", seg ≠ "" → (splitext seg).2 ≠ "")
    ∧ (∀ seg ∈ pySplit "/a.tab/bc.panel", seg ≠ "" → (splitext seg).2 ≠ "")
    ∧ getUniqueName "/ab.tab/c.panel" = getUniqueName "/a.tab/bc.panel" := by
  refine ⟨by decide, by decide, by decide, by decide, by decide⟩

/-- C3.  A container holding sub-components with original names `a`, `b`,
`c` (display name of `b` unaliased) and a layout listing exactly
`[c, a]`: the display-order traversal yields exactly `[c, a]` in that
order (`b` excluded), `contains b` still answers true, and `b` remains in
the raw sub-component list returned by `get_components`. -/
theorem layout_filters_display_order
    (a b c : String) (cA cB cC : Comp)
    (hA : cA.originalName = a) (hB : cB.originalName = b) (hC : cC.originalName = c)
    (hBdisp : cB.displayName = b)
    (_hab : a ≠ b) (hac : a ≠ c) (hbc : b ≠ c)
    (hsa : strContains SEPARATOR_IDENTIFIER a = false)
    (hsla : strContains SLIDEOUT_IDENTIFIER a = false)
    (hsc : strContains SEPARATOR_IDENTIFIER c = false)
    (hslc : strContains SLIDEOUT_IDENTIFIER c = false)
    (o n : String) (ps : List String) :
    (Comp.cont o n ps (some [c, a]) [cA, cB, cC]).iterItems
        = [UIItem.component cC, UIItem.component cA]
    ∧ (Comp.cont o n ps (some [c, a]) [cA, cB, cC]).containsItem b = true
    ∧ cB ∈ (Comp.cont o n ps (some [c, a]) [cA, cB, cC]).getComponents := by
  have hfc : List.find? (fun x => decide (x.originalName = c)) [cA, cB, cC] = some cC := by
    rw [List.find?_cons_of_neg _ (by simp [hA, hac]),
        List.find?_cons_of_neg _ (by simp [hB, hbc]),
        List.find?_cons_of_pos _ (by simp [hC])]
  have hfa : List.find? (fun x => decide (x.originalName = a)) [cA, cB, cC] = some cA := by
    rw [List.find?_cons_of_pos _ (by simp [hA])]
  refine ⟨?_, ?_, ?_⟩
  · show getComponentsPerLayout (some [c, a]) [cA, cB, cC] = _
    simp only [getComponentsPerLayout, List.isEmpty, collectPerLayout, hfc, hfa,
      insertMarkersAux, hsa, hsla, hsc, hslc]
    simp
  · show ([cA, cB, cC].any fun x => b = x.displayName) = true
    simp only [List.any_eq_true]
    exact ⟨cB, by simp, by simp [hBdisp]⟩
  · show cB ∈ [cA, cB, cC]
    simp

/-- Witness for `layout_filters_display_order` at original names
`A`, `B`, `C`. -/
theorem layout_filters_display_order_witness :
    (Comp.cont "pnl" "pnl" [] (some ["C", "A"])
        [Comp.cmd "A" "A" [], Comp.cmd "B" "B" [], Comp.cmd "C" "C" []]).iterItems
        = [UIItem.component (Comp.cmd "C" "C" []), UIItem.component (Comp.cmd "A" "A" [])]
    ∧ (Comp.cont "pnl" "pnl" [] (some ["C", "A"])
        [Comp.cmd "A" "A" [], Comp.cmd "B" "B" [], Comp.cmd "C" "C" []]).containsItem "B" = true
    ∧ Comp.cmd "B" "B" [] ∈ (Comp.cont "pnl" "pnl" [] (some ["C", "A"])
        [Comp.cmd "A" "A" [], Comp.cmd "B" "B" [], Comp.cmd "C" "C" []]).getComponents :=
  layout_filters_display_order "A" "B" "C"
    (Comp.cmd "A" "A" []) (Comp.cmd "B" "B" []) (Comp.cmd "C" "C" [])
    rfl rfl rfl rfl (by decide) (by decide) (by decide)
    (by decide) (by decide) (by decide) (by decide) "pnl" "pnl" []

/-- C4.  With sub-components named `a`, `b` and layout
`[a, separator-token, b]`, the display order contains a fresh separator
marker between `a` and `b`; with the separator token as the LAST layout
entry, no marker appears anywhere in the produced sequence. -/
theorem separator_marker_placement
    (a b : String) (cA cB : Comp)
    (hA : cA.originalName = a) (hB : cB.originalName = b)
    (hab : a ≠ b)
    (hsepa : strContains SEPARATOR_IDENTIFIER a = false)
    (hsepb : strContains SEPARATOR_IDENTIFIER b = false)
    (hsla : strContains SLIDEOUT_IDENTIFIER a = false)
    (hslb : strContains SLIDEOUT_IDENTIFIER b = false)
    (hasep : a ≠ SEPARATOR_IDENTIFIER) (hbsep : b ≠ SEPARATOR_IDENTIFIER) :
    getComponentsPerLayout (some [a, SEPARATOR_IDENTIFIER, b]) [cA, cB]
        = [UIItem.component cA, UIItem.separatorMarker, UIItem.component cB]
    ∧ getComponentsPerLayout (some [a, b, SEPARATOR_IDENTIFIER]) [cA, cB]
        = [UIItem.component cA, UIItem.component cB]
    ∧ UIItem.separatorMarker ∉
        getComponentsPerLayout (some [a, b, SEPARATOR_IDENTIFIER]) [cA, cB]
    ∧ UIItem.slideoutMarker ∉
        getComponentsPerLayout (some [a, b, SEPARATOR_IDENTIFIER]) [cA, cB] := by
  have hfa : List.find? (fun x => decide (x.originalName = a)) [cA, cB] = some cA := by
    rw [List.find?_cons_of_pos _ (by simp [hA])]
  have hfb : List.find? (fun x => decide (x.originalName = b)) [cA, cB] = some cB := by
    rw [List.find?_cons_of_neg _ (by simp [hA, hab]),
        List.find?_cons_of_pos _ (by simp [hB])]
  have hfs : List.find? (fun x => decide (x.originalName = SEPARATOR_IDENTIFIER)) [cA, cB]
      = none := by
    rw [List.find?_cons_of_neg _ (by simp [hA, hasep]),
        List.find?_cons_of_neg _ (by simp [hB, hbsep])]
    rfl
  have hss : strContains SEPARATOR_IDENTIFIER SEPARATOR_IDENTIFIER = true := by decide
  have h2 : getComponentsPerLayout (some [a, b, SEPARATOR_IDENTIFIER]) [cA, cB]
      = [UIItem.component cA, UIItem.component cB] := by
    simp only [getComponentsPerLayout, List.isEmpty, collectPerLayout, hfa, hfb, hfs,
      insertMarkersAux, hsepa, hsla, hsepb, hslb]
    simp
  refine ⟨?_, h2, ?_, ?_⟩
  · simp only [getComponentsPerLayout, List.isEmpty, collectPerLayout, hfa, hfb, hfs,
      insertMarkersAux, hsepa, hsla, hsepb, hslb, hss]
    simp [pyInsertAt]
  · rw [h2]; simp
  · rw [h2]; simp

/-- Witness for `separator_marker_placement` at original names `A`, `B`. -/
theorem separator_marker_placement_witness :
    getComponentsPerLayout (some ["A", SEPARATOR_IDENTIFIER, "B"])
        [Comp.cmd "A" "A" [], Comp.cmd "B" "B" []]
        = [UIItem.component (Comp.cmd "A" "A" []), UIItem.separatorMarker,
           UIItem.component (Comp.cmd "B" "B" [])]
    ∧ getComponentsPerLayout (some ["A", "B", SEPARATOR_IDENTIFIER])
        [Comp.cmd "A" "A" [], Comp.cmd "B" "B" []]
        = [UIItem.component (Comp.cmd "A" "A" []), UIItem.component (Comp.cmd "B" "B" [])]
    ∧ UIItem.separatorMarker ∉ getComponentsPerLayout (some ["A", "B", SEPARATOR_IDENTIFIER])
        [Comp.cmd "A" "A" [], Comp.cmd "B" "B" []]
    ∧ UIItem.slideoutMarker ∉ getComponentsPerLayout (some ["A", "B", SEPARATOR_IDENTIFIER])
        [Comp.cmd "A" "A" [], Comp.cmd "B" "B" []] :=
  separator_marker_placement "A" "B" (Comp.cmd "A" "A" []) (Comp.cmd "B" "B" [])
    rfl rfl (by decide) (by decide) (by decide) (by decide) (by decide)
    (by decide) (by decide)

theorem addSyspathList_eq_map (l : List Comp) (p : String) :
    Comp.addSyspathList l p = l.map (fun c => c.addSyspath p) := by
  induction l with
  | nil => rfl
  | cons c cs ih => simp only [Comp.addSyspathList, List.map_cons, ih]

theorem removeSyspathList_eq_map (l : List Comp) (p : String) :
    Comp.removeSyspathList l p = l.map (fun c => c.removeSyspath p) := by
  induction l with
  | nil => rfl
  | cons c cs ih => simp only [Comp.removeSyspathList, List.map_cons, ih]

theorem foldl_addSyspath_cmd (co cn : String) (ps : List String) :
    ∀ cps : List String, ps.Nodup → (∀ p ∈ ps, p ≠ "" ∧ p ∉ cps) →
      ps.foldl Comp.addSyspath (Comp.cmd co cn cps) = Comp.cmd co cn (cps ++ ps) := by
  induction ps with
  | nil => intro cps _ _; simp
  | cons p rest ih =>
    intro cps hnd hf
    have hp := hf p (List.mem_cons_self p rest)
    have hstep : Comp.addSyspath (Comp.cmd co cn cps) p = Comp.cmd co cn (cps ++ [p]) := by
      simp only [Comp.addSyspath]
      rw [if_pos ⟨hp.1, hp.2⟩]
    have hfresh : ∀ q ∈ rest, q ≠ "" ∧ q ∉ cps ++ [p] := by
      intro q hq
      refine ⟨(hf q (List.mem_cons_of_mem p hq)).1, ?_⟩
      intro hmem
      rcases List.mem_append.mp hmem with h | h
      · exact (hf q (List.mem_cons_of_mem p hq)).2 h
      · have hqp : q = p := by simpa using h
        subst hqp
        exact (List.nodup_cons.mp hnd).1 hq
    rw [List.foldl_cons, hstep, ih (cps ++ [p]) (List.Nodup.of_cons hnd) hfresh]
    simp

/-- C9.  `add_component` always succeeds: it never consults
`allowed_sub_cmps` — the child (of ANY kind, disallowed kinds included)
is appended unconditionally after each currently-held search path of the
container has been pushed to it; for a fresh command child the pushed
paths are exactly appended to its search-path list. -/
theorem add_component_unconditional
    (o n : String) (ps : List String) (lay : Option (List String)) (subs : List Comp)
    (child : Comp) :
    (Comp.cont o n ps lay subs).addComponent child
        = Comp.cont o n ps lay (subs ++ [ps.foldl Comp.addSyspath child])
    ∧ ((Comp.cont o n ps lay subs).addComponent child).getComponents.length
        = subs.length + 1
    ∧ (∀ (co cn : String) (cps : List String), ps.Nodup →
        (∀ p ∈ ps, p ≠ "" ∧ p ∉ cps) →
        ps.foldl Comp.addSyspath (Comp.cmd co cn cps) = Comp.cmd co cn (cps ++ ps)) := by
  refine ⟨rfl, by simp [Comp.addComponent, Comp.getComponents], ?_⟩
  intro co cn cps hnd hf
  exact foldl_addSyspath_cmd co cn ps cps hnd hf

/-- Witness for `add_component_unconditional`: a command child (allowed)
and a container child (a kind `allowed_sub_cmps` would reject, e.g. a
container added under a command group) are accepted identically. -/
theorem add_component_unconditional_witness :
    (Comp.cont "grp" "grp" ["L1", "L2"] none []).addComponent (Comp.cmd "x" "x" [])
        = Comp.cont "grp" "grp" ["L1", "L2"] none [Comp.cmd "x" "x" ["L1", "L2"]]
    ∧ (Comp.cont "grp" "grp" ["L1", "L2"] none []).addComponent
          (Comp.cont "t" "t" [] none [])
        = Comp.cont "grp" "grp" ["L1", "L2"] none
            [Comp.cont "t" "t" ["L1", "L2"] none []] := by
  constructor
  · have h := add_component_unconditional "grp" "grp" ["L1", "L2"] none []
      (Comp.cmd "x" "x" [])
    rw [h.1, h.2.2 "x" "x" [] (by decide) (by decide)]
    rfl
  · have h := add_component_unconditional "grp" "grp" ["L1", "L2"] none []
      (Comp.cont "t" "t" [] none [])
    rw [h.1]
    rfl

/-- C10.  `remove_syspath` on a container: for a truthy, present path it
removes the path from every current sub-component (via each child's own
recursive `remove_syspath`) and removes exactly one (the first)
occurrence from the container's own list; for an absent or falsy path it
is a no-op leaving the container and every sub-component unchanged.  The
command case mirrors this without recursion. -/
theorem remove_syspath_spec
    (o n : String) (ps : List String) (lay : Option (List String)) (subs : List Comp)
    (p : String) :
    ((p = "" ∨ p ∉ ps) →
        (Comp.cont o n ps lay subs).removeSyspath p = Comp.cont o n ps lay subs)
    ∧ (p ≠ "" → p ∈ ps →
        (Comp.cont o n ps lay subs).removeSyspath p
          = Comp.cont o n (ps.erase p) lay (subs.map (fun c => c.removeSyspath p)))
    ∧ (p ∈ ps → (ps.erase p).count p + 1 = ps.count p)
    ∧ (∀ (co cn : String) (cps : List String),
        (Comp.cmd co cn cps).removeSyspath p
          = if p ≠ "" ∧ p ∈ cps then Comp.cmd co cn (cps.erase p)
            else Comp.cmd co cn cps) := by
  refine ⟨?_, ?_, ?_, ?_⟩
  · intro h
    simp only [Comp.removeSyspath]
    rw [if_neg]
    rintro ⟨hne, hmem⟩
    rcases h with h | h
    · exact hne h
    · exact h hmem
  · intro hne hmem
    simp only [Comp.removeSyspath]
    rw [if_pos ⟨hne, hmem⟩, removeSyspathList_eq_map]
  · intro hmem
    have hpos : 0 < ps.count p := List.count_pos_iff.mpr hmem
    rw [List.count_erase_self]
    omega
  · intro co cn cps
    simp only [Comp.removeSyspath]

/-- Witness for `remove_syspath_spec`: removal recurses into the child
and erases one occurrence; an absent path is a no-op. -/
theorem remove_syspath_spec_witness :
    (Comp.cont "pkg" "pkg" ["L1", "L2"] none
        [Comp.cmd "x" "x" ["L1"]]).removeSyspath "L1"
      = Comp.cont "pkg" "pkg" ["L2"] none [Comp.cmd "x" "x" []]
    ∧ (Comp.cont "pkg" "pkg" ["L1", "L2"] none
        [Comp.cmd "x" "x" ["L1"]]).removeSyspath "L3"
      = Comp.cont "pkg" "pkg" ["L1", "L2"] none [Comp.cmd "x" "x" ["L1"]]
    ∧ (Comp.cont "pkg" "pkg" ["L1", "L2"] none
        [Comp.cmd "x" "x" ["L1"]]).removeSyspath ""
      = Comp.cont "pkg" "pkg" ["L1", "L2"] none [Comp.cmd "x" "x" ["L1"]] := by
  have h1 := remove_syspath_spec "pkg" "pkg" ["L1", "L2"] none
    [Comp.cmd "x" "x" ["L1"]] "L1"
  have h3 := remove_syspath_spec "pkg" "pkg" ["L1", "L2"] none
    [Comp.cmd "x" "x" ["L1"]] "L3"
  have h0 := remove_syspath_spec "pkg" "pkg" ["L1", "L2"] none
    [Comp.cmd "x" "x" ["L1"]] ""
  refine ⟨?_, ?_, ?_⟩
  · rw [h1.2.1 (by decide) (by decide)]
    rfl
  · rw [h3.1 (Or.inr (by decide))]
  · rw [h0.1 (Or.inl rfl)]

theorem dictGet_dictSet (d : CacheDict) (k k' : String) (v : CVal) :
    dictGet (dictSet d k v) k' = if k' = k then some v else dictGet d k' := by
  induction d with
  | nil =>
    by_cases h : k' = k
    · subst h; simp [dictSet, dictGet]
    · have h2 : ¬k = k' := fun hh => h hh.symm
      simp [dictSet, dictGet, h, h2]
  | cons kv rest ih =>
    obtain ⟨k0, v0⟩ := kv
    by_cases h0 : k0 = k
    · subst h0
      by_cases h' : k' = k0
      · subst h'; simp [dictSet, dictGet]
      · have h2 : ¬k0 = k' := fun hh => h' hh.symm
        simp [dictSet, dictGet, h', h2]
    · by_cases h1 : k0 = k'
      · subst h1
        have h2 : ¬k0 = k := h0
        simp [dictSet, dictGet, h0, h2]
      · simp [dictSet, dictGet, h0, h1, ih]

theorem dictGet_eq_none_iff (d : CacheDict) (k : String) :
    dictGet d k = none ↔ k ∉ dictKeys d := by
  induction d with
  | nil => simp [dictGet, dictKeys]
  | cons kv rest ih =>
    obtain ⟨k0, v0⟩ := kv
    simp only [dictGet, dictKeys, List.map_cons, List.mem_cons]
    by_cases h : k0 = k
    · subst h; simp
    · simp only [if_neg h]
      rw [ih]
      constructor
      · rintro hn (h1 | h2)
        · exact h h1.symm
        · exact hn h2
      · intro hn h2
        exact hn (Or.inr h2)

theorem dictKeys_dictSet (d : CacheDict) (k : String) (v : CVal) :
    dictKeys (dictSet d k v) = if k ∈ dictKeys d then dictKeys d else dictKeys d ++ [k] := by
  induction d with
  | nil => simp [dictSet, dictKeys]
  | cons kv rest ih =>
    obtain ⟨k0, v0⟩ := kv
    by_cases h : k0 = k
    · subst h; simp [dictSet, dictKeys]
    · simp only [dictSet, if_neg h, dictKeys, List.map_cons, List.mem_cons]
      have ih2 : List.map Prod.fst (dictSet rest k v)
          = if k ∈ List.map Prod.fst rest then List.map Prod.fst rest
            else List.map Prod.fst rest ++ [k] := by
        simpa [dictKeys] using ih
      rw [ih2]
      by_cases hm : k ∈ List.map Prod.fst rest
      · rw [if_pos hm, if_pos (Or.inr hm)]
      · rw [if_neg hm, if_neg ?hnot]
        · simp
        case hnot =>
          rintro (h1 | h2)
          · exact h h1.symm
          · exact hm h2

theorem nodup_dictKeys_dictSet (d : CacheDict) (k : String) (v : CVal)
    (hd : (dictKeys d).Nodup) : (dictKeys (dictSet d k v)).Nodup := by
  rw [dictKeys_dictSet]
  by_cases hm : k ∈ dictKeys d
  · rwa [if_pos hm]
  · rw [if_neg hm]
    simpa using List.Nodup.append hd (by simp) (by simpa using hm)

theorem dictGet_loadFold (cache : CacheDict) :
    ∀ (d : CacheDict) (k : String), (dictKeys cache).Nodup →
      dictGet (cache.foldl (fun acc kv => dictSet acc kv.1 kv.2) d) k
        = match dictGet cache k with
          | some v => some v
          | none => dictGet d k := by
  induction cache with
  | nil => intro d k _; simp [dictGet]
  | cons kv rest ih =>
    intro d k hnd
    obtain ⟨k0, v0⟩ := kv
    have hnd' : (dictKeys rest).Nodup := by
      simpa [dictKeys] using (List.nodup_cons.mp (by simpa [dictKeys] using hnd)).2
    have hk0 : k0 ∉ dictKeys rest :=
      (List.nodup_cons.mp (by simpa [dictKeys] using hnd)).1
    rw [List.foldl_cons, ih (dictSet d k0 v0) k hnd']
    simp only [dictGet]
    by_cases h : k0 = k
    · subst h
      rw [if_pos rfl]
      have : dictGet rest k0 = none := (dictGet_eq_none_iff rest k0).mpr hk0
      rw [this]
      simp [dictGet_dictSet]
    · rw [if_neg h]
      cases hr : dictGet rest k with
      | some v => rfl
      | none =>
        simp only []
        rw [dictGet_dictSet, if_neg (fun hh => h hh.symm)]

/-- C1.  Cache round trip (any concrete kind: instantiate `F` with the
fresh `__dict__` of that kind — `containerInitDict`, `commandInitDict`,
`packageInitDict`, `toggleButtonInitDict`, `linkButtonInitDict` — and `D`
with the state of a constructed entity of the same kind, whose keys
always include the init keys).  Importing an exported mapping into a
fresh entity and re-exporting reproduces the original export verbatim
(key-wise: nothing lost, nothing invented, nested sub-component values
copied unchanged), and the imported entity is attribute-wise equal to the
original. -/
theorem cache_round_trip (T : String) (F D : CacheDict)
    (hkeys : ∀ k ∈ dictKeys F, k ∈ dictKeys D)
    (hD : (dictKeys D).Nodup) :
    (∀ k, dictGet (get_cache_data (load_cache_data ⟨T, F⟩ (get_cache_data ⟨T, D⟩))) k
        = dictGet (get_cache_data ⟨T, D⟩) k)
    ∧ (∀ k, (load_cache_data ⟨T, F⟩ (get_cache_data ⟨T, D⟩)).attr k
        = PyObject.attr ⟨T, D⟩ k) := by
  obtain ⟨t, ht⟩ : ∃ t, PyObject.typeIdAttr ⟨T, D⟩ = t := ⟨_, rfl⟩
  have hexp : get_cache_data ⟨T, D⟩ = dictSet D "type_id" t := by rw [← ht]; rfl
  rw [hexp]
  have hFnone : ∀ k, dictGet D k = none → dictGet F k = none := by
    intro k hk
    rw [dictGet_eq_none_iff] at hk ⊢
    exact fun hmem => hk (hkeys k hmem)
  have hEnodup := nodup_dictKeys_dictSet D "type_id" t hD
  have hEget : ∀ k, dictGet (dictSet D "type_id" t) k
      = if k = "type_id" then some t else dictGet D k :=
    fun k => dictGet_dictSet D "type_id" k t
  have hload : ∀ k, dictGet (load_cache_data ⟨T, F⟩ (dictSet D "type_id" t)).attrdict k
      = if k = "type_id" then some t else dictGet D k := by
    intro k
    have h1 : (load_cache_data ⟨T, F⟩ (dictSet D "type_id" t)).attrdict
        = (dictSet D "type_id" t).foldl (fun acc kv => dictSet acc kv.1 kv.2) F := rfl
    rw [h1, dictGet_loadFold _ F k hEnodup, hEget k]
    by_cases h : k = "type_id"
    · simp [h]
    · simp only [if_neg h]
      cases hD' : dictGet D k with
      | some v => rfl
      | none => simpa using hFnone k hD'
  have htid : PyObject.typeIdAttr (load_cache_data ⟨T, F⟩ (dictSet D "type_id" t)) = t := by
    simp only [PyObject.typeIdAttr]
    rw [hload "type_id"]
    simp
  constructor
  · intro k
    simp only [get_cache_data]
    rw [dictGet_dictSet, htid, hload k, hEget k]
    by_cases h : k = "type_id" <;> simp [h]
  · intro k
    simp only [PyObject.attr]
    rw [hload k]
    by_cases h : k = "type_id"
    · subst h
      rw [if_pos rfl, ← ht]
      simp only [PyObject.typeIdAttr]
      cases hD' : dictGet D "type_id" <;> simp [hD']
    · rw [if_neg h]
      cases hD' : dictGet D k <;> simp [h]

/-- Witness for `cache_round_trip`: a constructed `Package` (nested
exported sub-component included) imported into a fresh `Package()`. -/
theorem cache_round_trip_witness :
    dictGet (get_cache_data (load_cache_data ⟨".package", packageInitDict⟩
        (get_cache_data ⟨".package", samplePackageDict⟩))) "_sub_components"
      = dictGet (get_cache_data ⟨".package", samplePackageDict⟩) "_sub_components"
    ∧ (load_cache_data ⟨".package", packageInitDict⟩
        (get_cache_data ⟨".package", samplePackageDict⟩)).attr "hash_value"
      = PyObject.attr ⟨".package", samplePackageDict⟩ "hash_value" :=
  ⟨(cache_round_trip ".package" packageInitDict samplePackageDict
      (by decide) (by decide)).1 "_sub_components",
   (cache_round_trip ".package" packageInitDict samplePackageDict
      (by decide) (by decide)).2 "hash_value"⟩

/-- C6 (amended).  Construction from a directory that does not end in
the kind's type tag always fails with the format error; the only state
touched before the raise is `directory` (and, for containers, the
sub-component list being reset to empty) — every other attribute keeps
its fresh value. -/
theorem bad_suffix_format_error
    (cenv : ContEnv) (env : CmdEnv) (typeId dir : String)
    (s : ContState) (sc : CmdState)
    (h : pyEndsWith dir typeId = false) :
    initFromDirCont cenv typeId s dir
        = ({ s with sub_components := [], directory := some dir },
           some PyErr.unknownFormatError)
    ∧ initFromDirCmd env typeId sc dir
        = ({ sc with directory := some dir }, some PyErr.unknownFormatError) := by
  constructor
  · simp [initFromDirCont, h]
  · simp [initFromDirCmd, h]

/-- Witness for `bad_suffix_format_error`: a `.panel` directory offered
to a Tab. -/
theorem bad_suffix_format_error_witness :
    initFromDirCont trivContEnv TAB_POSTFIX freshContState "/x/foo.panel"
        = ({ freshContState with sub_components := [], directory := some "/x/foo.panel" },
           some PyErr.unknownFormatError)
    ∧ initFromDirCmd trivCmdEnv TAB_POSTFIX freshCmdState "/x/foo.panel"
        = ({ freshCmdState with directory := some "/x/foo.panel" },
           some PyErr.unknownFormatError) :=
  bad_suffix_format_error trivContEnv trivCmdEnv TAB_POSTFIX "/x/foo.panel"
    freshContState freshCmdState rfl

/-- C6 counterexample.  The claim that "no attributes of the entity are
populated when the error is raised" fails: `self.directory = branch_dir`
(source lines 83, 244) executes BEFORE the suffix check, so at the raise
the entity's `directory` attribute already holds the offending path and
the entity differs from a fresh one. -/
theorem bad_suffix_still_sets_directory :
    (initFromDirCont trivContEnv TAB_POSTFIX freshContState "/x/foo.panel").2
        = some PyErr.unknownFormatError
    ∧ (initFromDirCont trivContEnv TAB_POSTFIX freshContState "/x/foo.panel").1.directory
        = some "/x/foo.panel"
    ∧ freshContState.directory = none
    ∧ (initFromDirCont trivContEnv TAB_POSTFIX freshContState "/x/foo.panel").1
        ≠ freshContState
    ∧ (initFromDirCmd trivCmdEnv TAB_POSTFIX freshCmdState "/x/foo.panel").2
        = some PyErr.unknownFormatError
    ∧ (initFromDirCmd trivCmdEnv TAB_POSTFIX freshCmdState "/x/foo.panel").1.directory
        = some "/x/foo.panel" := by
  refine ⟨rfl, rfl, rfl, ?_, rfl, rfl⟩
  intro hcontra
  exact Option.noConfusion
    (show some "/x/foo.panel" = (none : Option String) from
      congrArg ContState.directory hcontra)

/-- C7.  For a command directory with a valid suffix and a present
primary script, whenever the extracted minimum host version is set
(truthy) and the host is older, or the extracted minimum app version is
set and the app is older, construction fails with a DependencyError
(re-raised to the caller), regardless of the other extracted fields. -/
theorem version_gate_dependency_error
    (env : CmdEnv) (typeId dir : String)
    (u d a mp mr o cx : PyVal)
    (hsuffix : pyEndsWith dir typeId = true)
    (hscript : env.pathExists (pyJoin dir DEFAULT_SCRIPT_FILE) = true)
    (hparse : env.parserInitOk = true)
    (hu : env.extractParam UI_TITLE_PARAM = .ok u)
    (hd : env.extractParam DOCSTRING_PARAM = .ok d)
    (ha : env.extractParam AUTHOR_PARAM = .ok a)
    (hmp : env.extractParam MIN_PYREVIT_VERSION_PARAM = .ok mp)
    (hmr : env.extractParam MIN_REVIT_VERSION_PARAM = .ok mr)
    (ho : env.extractParam COMMAND_OPTIONS_PARAM = .ok o)
    (hcx : env.extractParam COMMAND_CONTEXT_PARAM = .ok cx)
    (hgate : (mr.truthy = true ∧ env.hostIsOlderThan mr = true)
        ∨ (mp.truthy = true ∧ env.appIsOlderThan mp = true)) :
    ∃ e, (initFromDirCmd env typeId freshCmdState dir).2 = some e
        ∧ e.isDependencyError = true := by
  have hrun : ∀ s : CmdState, runExtractions env s
      = { s with ui_title := if u.truthy = true then u else s.ui_title,
                 doc_string := d, author := a, min_pyrevit_ver := mp,
                 min_revit_ver := mr, cmd_options := o, cmd_context := cx } := by
    intro s
    simp only [runExtractions, hparse, hu, hd, ha, hmp, hmr, ho, hcx]
    by_cases hut : u.truthy = true
    · simp [hut]
    · simp [hut]
  rcases hgate with ⟨h1, h2⟩ | ⟨h1, h2⟩
  · refine ⟨.newerHostVersionRequired, ?_, rfl⟩
    simp [initFromDirCmd, hsuffix, hscript, hrun, h1, h2]
  · by_cases hh : mr.truthy = true ∧ env.hostIsOlderThan mr = true
    · refine ⟨.newerHostVersionRequired, ?_, rfl⟩
      simp [initFromDirCmd, hsuffix, hscript, hrun, hh.1, hh.2]
    · refine ⟨.newerPyRevitVersionRequired, ?_, rfl⟩
      simp [initFromDirCmd, hsuffix, hscript, hrun, hh, h1, h2]

/-- Witness for `version_gate_dependency_error`: a script declaring
minimum host version 2019 on an older host. -/
theorem version_gate_dependency_error_witness :
    ∃ e, (initFromDirCmd depGateCmdEnv PUSH_BUTTON_POSTFIX freshCmdState
        "/a.tab/b.pushbutton").2 = some e ∧ e.isDependencyError = true :=
  version_gate_dependency_error depGateCmdEnv PUSH_BUTTON_POSTFIX "/a.tab/b.pushbutton"
    .vnone .vnone .vnone .vnone (.vstr "2019") .vnone .vnone
    rfl rfl rfl rfl rfl rfl rfl rfl rfl rfl (Or.inl ⟨rfl, rfl⟩)

/-- C8 (amended).  A metadata-extraction failure is logged and swallowed
and construction continues — but the `try` block covers ALL extractions,
so extraction stops at the first failing parameter: fields extracted
before it (here the ui title) keep their extracted values, while the
failing field and every LATER field in the fixed extraction order are
left unset. -/
theorem metadata_failure_swallowed_stops_chain
    (env : CmdEnv) (typeId dir : String) (u : PyVal)
    (hsuffix : pyEndsWith dir typeId = true)
    (hscript : env.pathExists (pyJoin dir DEFAULT_SCRIPT_FILE) = true)
    (hparse : env.parserInitOk = true)
    (hu : env.extractParam UI_TITLE_PARAM = .ok u) (hut : u.truthy = true)
    (hd : env.extractParam DOCSTRING_PARAM = .error ()) :
    (∀ s : CmdState, runExtractions env s = { s with ui_title := u })
    ∧ (initFromDirCmd env typeId freshCmdState dir).2 = none
    ∧ (initFromDirCmd env typeId freshCmdState dir).1.ui_title = u
    ∧ (initFromDirCmd env typeId freshCmdState dir).1.doc_string = PyVal.vnone
    ∧ (initFromDirCmd env typeId freshCmdState dir).1.author = PyVal.vnone
    ∧ (initFromDirCmd env typeId freshCmdState dir).1.min_pyrevit_ver = PyVal.vnone
    ∧ (initFromDirCmd env typeId freshCmdState dir).1.min_revit_ver = PyVal.vnone
    ∧ (initFromDirCmd env typeId freshCmdState dir).1.cmd_options = PyVal.vnone
    ∧ (initFromDirCmd env typeId freshCmdState dir).1.cmd_context = PyVal.vnone := by
  have hrun : ∀ s : CmdState, runExtractions env s = { s with ui_title := u } := by
    intro s
    simp only [runExtractions, hparse, hu, hd]
    simp [hut]
  refine ⟨hrun, ?_, ?_, ?_, ?_, ?_, ?_, ?_, ?_⟩ <;>
  · cases hicon : env.pathExists (pyJoin dir DEFAULT_ICON_FILE) <;>
    cases hcfg : env.pathExists (pyJoin dir DEFAULT_CONFIG_SCRIPT_FILE) <;>
    cases hlib : env.pathExists (pyJoin dir COMP_LIBRARY_DIR_NAME) <;>
      simp [initFromDirCmd, hsuffix, hscript, hrun, hicon, hcfg, hlib, freshCmdState,
        PyVal.truthy]

/-- Witness for `metadata_failure_swallowed_stops_chain` at the
environment whose doc-string extraction fails. -/
theorem metadata_failure_swallowed_stops_chain_witness :
    (∀ s : CmdState, runExtractions docFailCmdEnv s = { s with ui_title := .vstr "Title" })
    ∧ (initFromDirCmd docFailCmdEnv PUSH_BUTTON_POSTFIX freshCmdState
        "/a.tab/b.pushbutton").2 = none
    ∧ (initFromDirCmd docFailCmdEnv PUSH_BUTTON_POSTFIX freshCmdState
        "/a.tab/b.pushbutton").1.ui_title = PyVal.vstr "Title"
    ∧ (initFromDirCmd docFailCmdEnv PUSH_BUTTON_POSTFIX freshCmdState
        "/a.tab/b.pushbutton").1.doc_string = PyVal.vnone
    ∧ (initFromDirCmd docFailCmdEnv PUSH_BUTTON_POSTFIX freshCmdState
        "/a.tab/b.pushbutton").1.author = PyVal.vnone
    ∧ (initFromDirCmd docFailCmdEnv PUSH_BUTTON_POSTFIX freshCmdState
        "/a.tab/b.pushbutton").1.min_pyrevit_ver = PyVal.vnone
    ∧ (initFromDirCmd docFailCmdEnv PUSH_BUTTON_POSTFIX freshCmdState
        "/a.tab/b.pushbutton").1.min_revit_ver = PyVal.vnone
    ∧ (initFromDirCmd docFailCmdEnv PUSH_BUTTON_POSTFIX freshCmdState
        "/a.tab/b.pushbutton").1.cmd_options = PyVal.vnone
    ∧ (initFromDirCmd docFailCmdEnv PUSH_BUTTON_POSTFIX freshCmdState
        "/a.tab/b.pushbutton").1.cmd_context = PyVal.vnone :=
  metadata_failure_swallowed_stops_chain docFailCmdEnv PUSH_BUTTON_POSTFIX
    "/a.tab/b.pushbutton" (.vstr "Title") rfl rfl rfl rfl rfl rfl

/-- C8 counterexample.  A failing doc-string extraction leaves the LATER
author field unset even though the extractor holds an author value
("jane"): the claim that "only the failing field is left unset, every
other metadata field is still extracted and populated" is false — the
single `try` block abandons all extractions after the first failure. -/
theorem metadata_failure_not_per_field :
    docFailCmdEnv.extractParam AUTHOR_PARAM = .ok (PyVal.vstr "jane")
    ∧ docFailCmdEnv.extractParam DOCSTRING_PARAM = .error ()
    ∧ (initFromDirCmd docFailCmdEnv PUSH_BUTTON_POSTFIX freshCmdState
        "/a.tab/b.pushbutton").2 = none
    ∧ (initFromDirCmd docFailCmdEnv PUSH_BUTTON_POSTFIX freshCmdState
        "/a.tab/b.pushbutton").1.author = PyVal.vnone :=
  ⟨rfl, rfl, rfl, rfl⟩

theorem fileMtimeSum_upd : ∀ (fs : List FSFile) (fi t' : Nat) (f : FSFile),
    fs[fi]? = some f →
    fileMtimeSum (updFileMtime fi t' fs) + (if matchRelevantFile f.fname then f.mtime else 0)
      = fileMtimeSum fs + (if matchRelevantFile f.fname then t' else 0)
  | [], _, _, _, h => by simp at h
  | f0 :: fs, 0, t', f, h => by
    have hf : f0 = f := by simpa using h
    subst hf
    cases hmf : matchRelevantFile f0.fname with
    | false => simp [updFileMtime, fileMtimeSum, hmf]
    | true =>
      simp only [updFileMtime, fileMtimeSum, hmf, if_true]
      omega
  | f0 :: fs, fi + 1, t', f, h => by
    have h' : fs[fi]? = some f := by simpa using h
    have ih := fileMtimeSum_upd fs fi t' f h'
    simp only [updFileMtime, fileMtimeSum]
    omega

theorem dirsMtimeSum_set : ∀ (subs : List FSDir) (i : Nat) (d' u : FSDir),
    subs[i]? = some d' →
    dirsMtimeSum (subs.take i ++ u :: subs.drop (i + 1)) + dirMtimeSum d'
      = dirsMtimeSum subs + dirMtimeSum u
  | [], _, _, _, h => by simp at h
  | d :: ds, 0, d', u, h => by
    have hd : d = d' := by simpa using h
    subst hd
    simp only [List.take_zero, List.drop_succ_cons, List.drop_zero, List.nil_append,
      dirsMtimeSum]
    omega
  | d :: ds, i + 1, d', u, h => by
    have h' : ds[i]? = some d' := by simpa using h
    have ih := dirsMtimeSum_set ds i d' u h'
    simp only [List.take_succ_cons, List.drop_succ_cons, List.cons_append, dirsMtimeSum,
      List.append_eq] at ih ⊢
    omega

theorem dirMtimeSum_updAt : ∀ (path : List Nat) (root : FSDir) (fi t' : Nat)
    (d : FSDir) (f : FSFile),
    dirAt path root = some d → d.files[fi]? = some f →
    dirMtimeSum (updAt path fi t' root) + relevantWeight d.dname f.fname f.mtime
      = dirMtimeSum root + relevantWeight d.dname f.fname t'
  | [], .mk n m fs subs, fi, t', d, f, hd, hf => by
    have hdd : FSDir.mk n m fs subs = d := by simpa [dirAt] using hd
    subst hdd
    have hf' : fs[fi]? = some f := by simpa [FSDir.files] using hf
    have hfl := fileMtimeSum_upd fs fi t' f hf'
    by_cases h1 : matchStructuralDir n = true <;>
      by_cases h2 : matchRelevantFile f.fname = true <;>
      simp [h2] at hfl <;>
      simp [updAt, dirMtimeSum, relevantWeight, FSDir.dname, h1, h2] <;>
      omega
  | i :: rest, .mk n m fs subs, fi, t', d, f, hd, hf => by
    cases hsub : subs[i]? with
    | none =>
      rw [dirAt, hsub] at hd
      exact absurd hd (by simp)
    | some d0 =>
      have hd' : dirAt rest d0 = some d := by
        rw [dirAt, hsub] at hd
        exact hd
      have ih := dirMtimeSum_updAt rest d0 fi t' d f hd' hf
      have hdec := dirsMtimeSum_set subs i d0 (updAt rest fi t' d0) hsub
      simp only [updAt, hsub, dirMtimeSum]
      omega

theorem filesAgree_sum : ∀ fs1 fs2, filesAgree fs1 fs2 = true →
    fileMtimeSum fs1 = fileMtimeSum fs2
  | [], [], _ => rfl
  | f1 :: r1, f2 :: r2, h => by
    simp only [filesAgree, Bool.and_eq_true, beq_iff_eq, Bool.or_eq_true,
      Bool.not_eq_true'] at h
    obtain ⟨⟨hn, hm⟩, hr⟩ := h
    have ih := filesAgree_sum r1 r2 hr
    simp only [fileMtimeSum, ih, hn]
    rcases hm with hm | hm
    · rw [hn] at hm
      simp [hm]
    · rw [hm]
  | [], _ :: _, h => by simp [filesAgree] at h
  | _ :: _, [], h => by simp [filesAgree] at h

mutual
theorem dirsAgree_sum : ∀ d1 d2, dirsAgree d1 d2 = true →
    dirMtimeSum d1 = dirMtimeSum d2
  | .mk n1 m1 fs1 s1, .mk n2 m2 fs2 s2, h => by
    simp only [dirsAgree, Bool.and_eq_true, beq_iff_eq] at h
    obtain ⟨⟨hn, hif⟩, hs⟩ := h
    have ihs := dirListAgree_sum s1 s2 hs
    subst hn
    by_cases hmd : matchStructuralDir n1 = true
    · rw [if_pos hmd] at hif
      simp only [Bool.and_eq_true, beq_iff_eq] at hif
      have hfs := filesAgree_sum fs1 fs2 hif.2
      simp [dirMtimeSum, hmd, hif.1, hfs, ihs]
    · simp [dirMtimeSum, hmd, ihs]

theorem dirListAgree_sum : ∀ l1 l2, dirListAgree l1 l2 = true →
    dirsMtimeSum l1 = dirsMtimeSum l2
  | [], [], _ => rfl
  | d1 :: r1, d2 :: r2, h => by
    simp only [dirListAgree, Bool.and_eq_true] at h
    rw [dirsMtimeSum, dirsMtimeSum, dirsAgree_sum d1 d2 h.1,
      dirListAgree_sum r1 r2 h.2]
  | [], _ :: _, h => by simp [dirListAgree] at h
  | _ :: _, [], h => by simp [dirListAgree] at h
end

/-- C5.  The package content hash is a function of only the modification
times of structural-pattern directories and of relevant-pattern files
inside them: (i) two trees agreeing on those entries (all other
modification times arbitrary) hash identically; (ii) changing the
modification time of a relevant-pattern file inside a structural-pattern
directory changes the hash; (iii) changing the modification time of a
file that does not match the relevant-file pattern (e.g. an icon) never
changes the hash.  The hash is modelled as the `mtime_sum` accumulator;
the source's final `md5(str(·)).hexdigest()` is a fixed encoding of it
whose collisions the spec declares acceptable. -/
theorem package_hash_mtime_spec :
    (∀ t1 t2 : FSDir, dirsAgree t1 t2 = true → calculate_hash t1 = calculate_hash t2)
    ∧ (∀ (root : FSDir) (path : List Nat) (fi t' : Nat) (d : FSDir) (f : FSFile),
        dirAt path root = some d → d.files[fi]? = some f →
        matchStructuralDir d.dname = true → matchRelevantFile f.fname = true →
        t' ≠ f.mtime →
        calculate_hash (updAt path fi t' root) ≠ calculate_hash root)
    ∧ (∀ (root : FSDir) (path : List Nat) (fi t' : Nat) (d : FSDir) (f : FSFile),
        dirAt path root = some d → d.files[fi]? = some f →
        matchRelevantFile f.fname = false →
        calculate_hash (updAt path fi t' root) = calculate_hash root) := by
  refine ⟨?_, ?_, ?_⟩
  · intro t1 t2 h
    exact dirsAgree_sum t1 t2 h
  · intro root path fi t' d f hd hf hmd hmf hne
    have key := dirMtimeSum_updAt path root fi t' d f hd hf
    rw [relevantWeight, relevantWeight, if_pos ⟨hmd, hmf⟩, if_pos ⟨hmd, hmf⟩] at key
    intro hcontra
    rw [calculate_hash, calculate_hash] at hcontra
    omega
  · intro root path fi t' d f hd hf hmf
    have key := dirMtimeSum_updAt path root fi t' d f hd hf
    rw [relevantWeight, relevantWeight,
      if_neg (fun hc => by simp [hmf] at hc),
      if_neg (fun hc => by simp [hmf] at hc)] at key
    rw [calculate_hash, calculate_hash]
    omega

/-- Witness for `package_hash_mtime_spec` on `sampleTree`: icon-only
mtime differences agree and hash identically; touching `script.py`
changes the hash; touching the panel's `icon.png` does not. -/
theorem package_hash_mtime_spec_witness :
    calculate_hash sampleTree = calculate_hash sampleTreeIcons
    ∧ calculate_hash (updAt [0, 0] 0 100 sampleTree) ≠ calculate_hash sampleTree
    ∧ calculate_hash (updAt [0, 0] 1 999 sampleTree) = calculate_hash sampleTree := by
  refine ⟨?_, ?_, ?_⟩
  · exact package_hash_mtime_spec.1 sampleTree sampleTreeIcons (by decide)
  · exact package_hash_mtime_spec.2.1 sampleTree [0, 0] 0 100
      (.mk "P.panel" 17 [⟨"script.py", 19⟩, ⟨"icon.png", 23⟩] [])
      ⟨"script.py", 19⟩ rfl rfl (by decide) (by decide) (by decide)
  · exact package_hash_mtime_spec.2.2 sampleTree [0, 0] 1 999
      (.mk "P.panel" 17 [⟨"script.py", 19⟩, ⟨"icon.png", 23⟩] [])
      ⟨"icon.png", 23⟩ rfl rfl (by decide)

end PyRevitLoader
